import Mathlib

/-!
Verification of the APS n8n community nodes (Data Management and Model
Derivative pipelines): a shallow embedding of the response-normalization
engine, the per-item execution loop with its error policy, and the
operation resolver's URL/body construction, together with theorems about
the specified properties.

JavaScript values are modelled by the inductive type `Json`, which also
carries the two non-JSON runtime values the code manipulates: `jsUndefined`
(the JavaScript undefined value, distinct from null) and `buf` (a Node
Buffer, i.e. a byte sequence). JavaScript objects are modelled as
key-value lists in insertion order; object-literal evaluation with spread
overwrites the value of a duplicate key in place, which `setField` mirrors.
-/

inductive Json where
  | null
  | jsUndefined
  | jbool (b : Bool)
  | num (n : Int)
  | str (s : String)
  | arr (elems : List Json)
  | obj (fields : List (String × Json))
  | buf (bytes : List Nat)

/-- First-occurrence lookup of a key in a JavaScript object's field list. -/
def lookupField : List (String × Json) → String → Option Json
  | [], _ => none
  | (k', v) :: rest, k => if k' = k then some v else lookupField rest k

/-- Property access with optional chaining, `value?.k`: reading a key from a
non-object (or a missing key) yields the JavaScript undefined value. -/
def Json.optGet : Json → String → Json
  | .obj fs, k => (lookupField fs k).getD .jsUndefined
  | _, _ => .jsUndefined

/-- Lookup of a key in a `Json` value known to be an object; `none` otherwise. -/
def jsonLookup : Json → String → Option Json
  | .obj fs, k => lookupField fs k
  | _, _ => none

/-- JavaScript nullish test: true exactly for null and undefined
(the values skipped by the nullish-coalescing operator). -/
def Json.isNullish : Json → Bool
  | .null => true
  | .jsUndefined => true
  | _ => false

/-- JavaScript truthiness. -/
def Json.truthy : Json → Bool
  | .null => false
  | .jsUndefined => false
  | .jbool b => b
  | .num n => n != 0
  | .str s => s != ""
  | .arr _ => true
  | .obj _ => true
  | .buf _ => true

/-- Whether `typeof v` is the string "object" in JavaScript: true for plain
objects, arrays, Buffers and (notoriously) null. -/
def Json.typeofIsObject : Json → Bool
  | .null => true
  | .arr _ => true
  | .obj _ => true
  | .buf _ => true
  | _ => false

/-- `Buffer.isBuffer`. -/
def Json.isBuffer : Json → Bool
  | .buf _ => true
  | _ => false

/-- Assign key `k` to value `v` in a field list, JavaScript-object style:
an existing key keeps its position but its value is overwritten; a new key
is appended at the end. -/
def setField : List (String × Json) → String → Json → List (String × Json)
  | [], k, v => [(k, v)]
  | (k', v') :: rest, k, v =>
      if k' = k then (k', v) :: rest else (k', v') :: setField rest k v

/-- Object-literal spread `... v` merged onto the fields `base` already
written by the literal: each own property of `v` is assigned in turn.
Spreading an array or a Buffer assigns its elements under stringified
index keys; spreading anything else adds nothing. -/
def spreadInto (base : List (String × Json)) : Json → List (String × Json)
  | .obj fs => fs.foldl (fun acc kv => setField acc kv.1 kv.2) base
  | .arr xs => xs.enum.foldl (fun acc kv => setField acc (toString kv.1) kv.2) base
  | .buf bs => bs.enum.foldl (fun acc kv => setField acc (toString kv.1) (.num kv.2)) base
  | _ => base

/-- The entity-flattening function `simplifyEntity` of the Data Management
node: extracts id and type, takes href from the nested self link falling
back to the plain link, guards the attributes container (anything that is
not a truthy value of typeof object is replaced by the empty object), and
builds the object literal with id, type, href written first and the
attributes spread after them. -/
def simplifyEntity (entity : Json) : Json :=
  let h1 := ((entity.optGet "links").optGet "self").optGet "href"
  let h2 := (entity.optGet "links").optGet "href"
  let href := if h1.isNullish then (if h2.isNullish then Json.jsUndefined else h2) else h1
  let attrsVal := entity.optGet "attributes"
  let attrs := if attrsVal.truthy && attrsVal.typeofIsObject then attrsVal else Json.obj []
  Json.obj (spreadInto
    [("id", entity.optGet "id"), ("type", entity.optGet "type"), ("href", href)]
    attrs)

/-- One named binary payload attached to an output item
(`this.helpers.prepareBinaryData` result stored under a property key). -/
structure BinaryAttachment where
  key : String
  fileName : String
  mimeType : String
  bytes : List Nat

/-- One n8n output item: a json payload, the index of the input item that
produced it, and an optional binary attachment. The code writes the paired
index either as an object or as a bare number; both forms carry
exactly the index, modelled here as `pairedItemIndex`. -/
structure OutputItem where
  json : Json
  pairedItemIndex : Nat
  binary : Option BinaryAttachment := none

/-- The standard base64 alphabet used by Node's Buffer base64 encoding. -/
def b64Alphabet : String :=
  "ABCDEFGHIJKLMNOPQRSTUVWXYZabcdefghijklmnopqrstuvwxyz0123456789+/"

/-- Character of the base64 alphabet at a 6-bit index. -/
def b64Char (n : Nat) : Char := b64Alphabet.data.getD (n % 64) 'A'

/-- Base64 encoding of a byte sequence with padding, as produced by
Node's `buffer.toString` in base64 mode. -/
def base64Encode : List Nat → List Char
  | [] => []
  | [a] => [b64Char (a / 4), b64Char (a % 4 * 16), '=', '=']
  | [a, b] => [b64Char (a / 4), b64Char (a % 4 * 16 + b / 16), b64Char (b % 16 * 4), '=']
  | a :: b :: c :: rest =>
      b64Char (a / 4) :: b64Char (a % 4 * 16 + b / 16) ::
      b64Char (b % 16 * 4 + c / 64) :: b64Char (c % 64) :: base64Encode rest

def base64String (bs : List Nat) : String := ⟨base64Encode bs⟩

/-- The opportunistic JSON.parse step applied to a transport response:
a string response is parsed if possible and kept verbatim on parse
failure; a non-string response is untouched. The parser itself is the
host language's JSON.parse, passed in as a capability. -/
def parseIfString (parse : String → Option Json) : Json → Json
  | .str s => match parse s with
      | some j => j
      | none => .str s
  | v => v

/-- The response normalizer of the Data Management node, applied to the
(possibly parsed) body for input item `i`: shape dispatch on the body's
data field (array, single object, or pass-through), with optional
flattening and optional fan-out. -/
def normalizeDM (body : Json) (simplify splitItems : Bool) (i : Nat) : List OutputItem :=
  match body.optGet "data" with
  | .arr elems =>
      if splitItems then
        elems.map (fun el =>
          { json := if simplify then simplifyEntity el else el, pairedItemIndex := i })
      else if simplify then
        [{ json := .obj [("data", .arr (elems.map simplifyEntity))], pairedItemIndex := i }]
      else
        [{ json := body, pairedItemIndex := i }]
  | other =>
      if body.truthy && body.typeofIsObject && other.truthy && other.typeofIsObject then
        [{ json := if simplify then simplifyEntity other else other, pairedItemIndex := i }]
      else
        [{ json := body, pairedItemIndex := i }]

/-- The closed enumeration of Model Derivative operations. -/
inductive MDOperation where
  | createJob
  | getManifest
  | deleteManifest
  | getMetadata
  | getMetadataTree
  | getThumbnail
deriving DecidableEq

/-- The response normalizer of the Model Derivative node: the thumbnail
operation with a Buffer response yields the single binary output item
(base64 json payload, content type, binary attachment named data with
file name thumbnail.png); every other case parses a string body
opportunistically and passes it through as one item. -/
def normalizeMD (parse : String → Option Json) (op : MDOperation) (response : Json)
    (i : Nat) : List OutputItem :=
  match op, response with
  | .getThumbnail, .buf bs =>
      [{ json := .obj [("thumbnail", .str (base64String bs)),
                       ("contentType", .str "image/png")],
         pairedItemIndex := i,
         binary := some { key := "data", fileName := "thumbnail.png",
                          mimeType := "image/png", bytes := bs } }]
  | _, _ =>
      [{ json := parseIfString parse response, pairedItemIndex := i }]

/-- The errors caught at the per-item boundary: a configuration error
(missing/invalid required parameter, raised before any network action) or
a transport error (raised by the authenticated HTTP helper). -/
inductive ApsError where
  | config (msg : String)
  | transport (msg : String)

def ApsError.message : ApsError → String
  | .config m => m
  | .transport m => m

/-- The error-shaped output item pushed when continue-on-failure is
enabled: json is an object with a single error field, paired to item `i`. -/
def errorItem (msg : String) (i : Nat) : OutputItem :=
  { json := .obj [("error", .str msg)], pairedItemIndex := i }

/-- What one Data Management input item presents to the loop: the result
of resolving its parameters and invoking the transport (either an error,
or the raw response), plus the per-item simplify and splitItems flags. -/
structure ItemScenarioDM where
  outcome : Except ApsError Json
  simplify : Bool
  splitItems : Bool

/-- What one Model Derivative input item presents to the loop. -/
structure ItemScenarioMD where
  op : MDOperation
  outcome : Except ApsError Json

/-- The try-block body for one Data Management item: resolve and invoke
(the scenario's outcome), then parse and normalize. -/
def dmProc (parse : String → Option Json) (i : Nat) (sc : ItemScenarioDM) :
    Except ApsError (List OutputItem) :=
  sc.outcome.map (fun r => normalizeDM (parseIfString parse r) sc.simplify sc.splitItems i)

/-- The try-block body for one Model Derivative item. -/
def mdProc (parse : String → Option Json) (i : Nat) (sc : ItemScenarioMD) :
    Except ApsError (List OutputItem) :=
  sc.outcome.map (fun r => normalizeMD parse sc.op r i)

/-- Result of a whole execute call: either the final returnData, or the
NodeOperationError thrown with the offending item index, together with the
output items already appended to returnData at the moment of the throw. -/
inductive ExecResult where
  | ok (outputs : List OutputItem)
  | failed (msg : String) (itemIndex : Nat) (emitted : List OutputItem)

/-- The per-item loop with its catch clause, shared verbatim by both
nodes: on success append the normalized items; on a caught error, if
continue-on-failure is enabled append the single error-shaped item and
continue with the next item, otherwise rethrow carrying the item index. -/
def runLoopAux {σ : Type} (proc : Nat → σ → Except ApsError (List OutputItem))
    (cof : Bool) : List σ → Nat → List OutputItem → ExecResult
  | [], _, acc => .ok acc
  | sc :: rest, i, acc =>
      match proc i sc with
      | .ok outs => runLoopAux proc cof rest (i + 1) (acc ++ outs)
      | .error e =>
          if cof then runLoopAux proc cof rest (i + 1) (acc ++ [errorItem e.message i])
          else .failed e.message i acc

/-- The output items item `i` contributes when the loop keeps running:
the normalized items on success, the single error-shaped item on a
caught error under continue-on-failure. -/
def itemOut {σ : Type} (proc : Nat → σ → Except ApsError (List OutputItem))
    (i : Nat) (sc : σ) : List OutputItem :=
  match proc i sc with
  | .ok outs => outs
  | .error e => [errorItem e.message i]

/-- Concatenated contributions of a scenario list processed from index `i`. -/
def loopOutputs {σ : Type} (proc : Nat → σ → Except ApsError (List OutputItem)) :
    Nat → List σ → List OutputItem
  | _, [] => []
  | i, sc :: rest => itemOut proc i sc ++ loopOutputs proc (i + 1) rest

/-- The execute loop of the Data Management node. -/
def runDM (parse : String → Option Json) (cof : Bool) (scs : List ItemScenarioDM) :
    ExecResult :=
  runLoopAux (dmProc parse) cof scs 0 []

/-- The execute loop of the Model Derivative node. -/
def runMD (parse : String → Option Json) (cof : Bool) (scs : List ItemScenarioMD) :
    ExecResult :=
  runLoopAux (mdProc parse) cof scs 0 []

/-- Characters left unescaped by JavaScript's encodeURIComponent:
ASCII letters, digits, and the marks - _ . ! ~ * ' ( ). -/
def isEucSafe (c : Char) : Bool :=
  c.isAlpha || c.isDigit || c == '-' || c == '_' || c == '.' || c == '!' ||
  c == '~' || c == '*' || c == Char.ofNat 39 || c == '(' || c == ')'

/-- Uppercase hexadecimal digit of the low 4 bits of `n`. -/
def hexDigitChar (n : Nat) : Char :=
  if n % 16 < 10 then Char.ofNat (48 + n % 16) else Char.ofNat (55 + n % 16)

/-- UTF-8 byte sequence of a code point. -/
def utf8Bytes (n : Nat) : List Nat :=
  if n < 128 then [n]
  else if n < 2048 then [192 + n / 64, 128 + n % 64]
  else if n < 65536 then [224 + n / 4096, 128 + n / 64 % 64, 128 + n % 64]
  else [240 + n / 262144, 128 + n / 4096 % 64, 128 + n / 64 % 64, 128 + n % 64]

/-- Percent-escape of one byte. -/
def percentByte (b : Nat) : List Char := ['%', hexDigitChar (b / 16), hexDigitChar b]

/-- encodeURIComponent on one character. -/
def eucChar (c : Char) : List Char :=
  if isEucSafe c then [c] else ((utf8Bytes c.toNat).map percentByte).flatten

/-- JavaScript's encodeURIComponent. -/
def encodeURIComponent (s : String) : String := ⟨(s.data.map eucChar).flatten⟩

/-- The gen-delims of RFC 3986, the characters that delimit the generic
URI structure. -/
def isGenDelim (c : Char) : Bool :=
  c == ':' || c == '/' || c == '?' || c == '#' || c == '[' || c == ']' || c == '@'

/-- The full reserved set of RFC 3986: gen-delims plus sub-delims. -/
def isRfc3986Reserved (c : Char) : Bool :=
  isGenDelim c || c == '!' || c == '$' || c == '&' || c == Char.ofNat 39 ||
  c == '(' || c == ')' || c == '*' || c == '+' || c == ',' || c == ';' || c == '='

/-- Number of path separators in a string. -/
def countSlash (s : String) : Nat := s.data.count '/'

def BASE_URL : String := "https://developer.api.autodesk.com"

-- Resolved request URLs, built exactly as in the source: a fixed template
-- concatenated with each path parameter individually percent-encoded.
def hubsUrl : String := BASE_URL ++ "/project/v1/hubs"

def projectsUrl (hubId : String) : String :=
  BASE_URL ++ "/project/v1/hubs/" ++ encodeURIComponent hubId ++ "/projects"

def topFoldersUrl (projectId : String) : String :=
  BASE_URL ++ "/project/v1/projects/" ++ encodeURIComponent projectId ++ "/topFolders"

def itemsUrl (projectId folderId : String) : String :=
  BASE_URL ++ "/data/v1/projects/" ++ encodeURIComponent projectId ++
  "/folders/" ++ encodeURIComponent folderId ++ "/contents"

def itemVersionsUrl (projectId itemId : String) : String :=
  BASE_URL ++ "/data/v1/projects/" ++ encodeURIComponent projectId ++
  "/items/" ++ encodeURIComponent itemId ++ "/versions"

def bucketsUrl : String := BASE_URL ++ "/oss/v2/buckets"

def bucketDetailsUrl (bucketKey : String) : String :=
  BASE_URL ++ "/oss/v2/buckets/" ++ encodeURIComponent bucketKey ++ "/details"

def bucketUrl (bucketKey : String) : String :=
  BASE_URL ++ "/oss/v2/buckets/" ++ encodeURIComponent bucketKey

def objectUrl (bucketKey objectName : String) : String :=
  BASE_URL ++ "/oss/v2/buckets/" ++ encodeURIComponent bucketKey ++
  "/objects/" ++ encodeURIComponent objectName

def objectDetailsUrl (bucketKey objectName : String) : String :=
  BASE_URL ++ "/oss/v2/buckets/" ++ encodeURIComponent bucketKey ++
  "/objects/" ++ encodeURIComponent objectName ++ "/details"

def copyObjectUrl (bucketKey objectName newObjectName : String) : String :=
  BASE_URL ++ "/oss/v2/buckets/" ++ encodeURIComponent bucketKey ++
  "/objects/" ++ encodeURIComponent objectName ++
  "/copyTo/" ++ encodeURIComponent newObjectName

def jobUrl : String := BASE_URL ++ "/modelderivative/v2/designdata/job"

def manifestUrl (urn : String) : String :=
  BASE_URL ++ "/modelderivative/v2/designdata/" ++ encodeURIComponent urn ++ "/manifest"

def metadataUrl (urn : String) : String :=
  BASE_URL ++ "/modelderivative/v2/designdata/" ++ encodeURIComponent urn ++ "/metadata"

def metadataTreeUrl (urn guid : String) : String :=
  BASE_URL ++ "/modelderivative/v2/designdata/" ++ encodeURIComponent urn ++
  "/metadata/" ++ encodeURIComponent guid

def thumbnailUrl (urn : String) : String :=
  BASE_URL ++ "/modelderivative/v2/designdata/" ++ encodeURIComponent urn ++ "/thumbnail"

/-- A fully built request: method, resolved URL, query parameters,
headers, optional body, and whether the body is JSON-encoded. -/
structure RequestDescriptor where
  method : String
  url : String
  qs : List (String × Json)
  headers : List (String × String)
  body : Option Json
  jsonEncode : Bool

/-- The JSON body of the translation-job creation request: input urn and
an output format list with one entry; when the advanced toggle is on, the
views list is appended as a field of that entry (the source mutates
formats at index zero, adding the views key at the end). -/
def jobBody (urn outputFormat : String) (advanced : Bool) (views : List String) : Json :=
  let fmt : List (String × Json) := [("type", .str outputFormat)]
  let fmt := if advanced then fmt ++ [("views", .arr (views.map Json.str))] else fmt
  .obj [("input", .obj [("urn", .str urn)]),
        ("output", .obj [("formats", .arr [.obj fmt])])]

/-- The request descriptor built by the createJob branch of the Model
Derivative node. -/
def buildCreateJob (urn outputFormat : String) (forceRegenerate advanced : Bool)
    (views : List String) : RequestDescriptor :=
  { method := "POST"
    url := jobUrl
    body := some (jobBody urn outputFormat advanced views)
    jsonEncode := true
    headers := [("Content-Type", "application/json")]
    qs := if forceRegenerate then [("force", .jbool true)] else [] }

/-- The baseline createJob request without the optional views field, the
reference object the spec compares against. -/
def baselineCreateJob (urn outputFormat : String) (forceRegenerate : Bool) :
    RequestDescriptor :=
  { method := "POST"
    url := jobUrl
    body := some (.obj [("input", .obj [("urn", .str urn)]),
      ("output", .obj [("formats", .arr [.obj [("type", .str outputFormat)]])])])
    jsonEncode := true
    headers := [("Content-Type", "application/json")]
    qs := if forceRegenerate then [("force", .jbool true)] else [] }

/-! ### Helper lemmas -/

theorem str_data_append (a b : String) : (a ++ b).data = a.data ++ b.data := by
  cases a; cases b; rfl

theorem countSlash_append (a b : String) : countSlash (a ++ b) = countSlash a + countSlash b := by
  unfold countSlash
  rw [str_data_append, List.count_append]

theorem hexDigitChar_safe (n : Nat) : isEucSafe (hexDigitChar n) = true := by
  unfold hexDigitChar
  have h : n % 16 < 16 := Nat.mod_lt _ (by norm_num)
  generalize n % 16 = m at h ⊢
  interval_cases m <;> decide

theorem mem_encodeURIComponent (s : String) (c : Char)
    (h : c ∈ (encodeURIComponent s).data) : isEucSafe c = true ∨ c = '%' := by
  unfold encodeURIComponent at h
  simp only [List.mem_flatten, List.mem_map] at h
  obtain ⟨l, ⟨d, _, rfl⟩, hcl⟩ := h
  unfold eucChar at hcl
  split at hcl
  · left
    rw [List.mem_singleton.1 hcl]
    assumption
  · simp only [List.mem_flatten, List.mem_map] at hcl
    obtain ⟨pb, ⟨byte, _, rfl⟩, hcp⟩ := hcl
    unfold percentByte at hcp
    simp only [List.mem_cons, List.not_mem_nil, or_false] at hcp
    rcases hcp with rfl | rfl | rfl
    · right; rfl
    · left; exact hexDigitChar_safe _
    · left; exact hexDigitChar_safe _

theorem euc_char_not_gendelim (c : Char) (h : isEucSafe c = true ∨ c = '%') :
    isGenDelim c = false := by
  rcases h with h | rfl
  · cases hg : isGenDelim c with
    | false => rfl
    | true =>
      exfalso
      unfold isGenDelim at hg
      simp only [Bool.or_eq_true, beq_iff_eq, or_assoc] at hg
      rcases hg with rfl | rfl | rfl | rfl | rfl | rfl | rfl <;> exact absurd h (by decide)
  · rfl

theorem countSlash_enc (s : String) : countSlash (encodeURIComponent s) = 0 := by
  unfold countSlash
  rw [List.count_eq_zero]
  intro hmem
  rcases mem_encodeURIComponent s '/' hmem with h | h
  · exact absurd h (by decide)
  · exact absurd h (by decide)

theorem lookupField_setField_self (l : List (String × Json)) (k : String) (v : Json) :
    lookupField (setField l k v) k = some v := by
  induction l with
  | nil => simp [setField, lookupField]
  | cons kv rest ih =>
    obtain ⟨k', v'⟩ := kv
    by_cases hk : k' = k
    · subst hk; simp [setField, lookupField]
    · simp [setField, lookupField, hk, ih]

theorem lookupField_setField_ne (l : List (String × Json)) (k k' : String) (v : Json)
    (h : k' ≠ k) : lookupField (setField l k v) k' = lookupField l k' := by
  have hne : ¬k = k' := fun hh => h hh.symm
  induction l with
  | nil =>
    simp only [setField, lookupField]
    rw [if_neg hne]
  | cons kv rest ih =>
    obtain ⟨a, b⟩ := kv
    by_cases hak : a = k
    · subst hak
      simp only [setField, if_true]
      simp only [lookupField]
      rw [if_neg hne, if_neg hne]
    · simp only [setField]
      rw [if_neg hak]
      simp only [lookupField]
      by_cases hak' : a = k'
      · rw [if_pos hak', if_pos hak']
      · rw [if_neg hak', if_neg hak', ih]

theorem lookupField_foldl_notmem (attrs : List (String × Json)) (k : String)
    (h : k ∉ attrs.map Prod.fst) (b : List (String × Json)) :
    lookupField (attrs.foldl (fun acc kv => setField acc kv.1 kv.2) b) k = lookupField b k := by
  induction attrs generalizing b with
  | nil => rfl
  | cons kv rest ih =>
    simp only [List.map_cons, List.mem_cons, not_or] at h
    rw [List.foldl_cons, ih h.2, lookupField_setField_ne _ _ _ _ (fun hh => h.1 hh)]

theorem lookupField_foldl_mem (attrs : List (String × Json)) (k : String) (v : Json)
    (hnd : (attrs.map Prod.fst).Nodup) (hf : lookupField attrs k = some v)
    (b : List (String × Json)) :
    lookupField (attrs.foldl (fun acc kv => setField acc kv.1 kv.2) b) k = some v := by
  induction attrs generalizing b with
  | nil => simp [lookupField] at hf
  | cons kv rest ih =>
    obtain ⟨a, w⟩ := kv
    simp only [List.map_cons, List.nodup_cons] at hnd
    rw [List.foldl_cons]
    by_cases hak : a = k
    · subst hak
      simp only [lookupField, if_pos rfl] at hf
      rw [lookupField_foldl_notmem rest _ hnd.1, lookupField_setField_self]
      exact hf
    · simp only [lookupField, if_neg hak] at hf
      exact ih hnd.2 hf _

theorem normalizeDM_pairedIndex (body : Json) (s t : Bool) (i : Nat) (o : OutputItem)
    (h : o ∈ normalizeDM body s t i) : o.pairedItemIndex = i := by
  unfold normalizeDM at h
  split at h
  · split at h
    · obtain ⟨el, _, rfl⟩ := List.mem_map.1 h
      rfl
    · split at h
      · rw [List.mem_singleton.1 h]
      · rw [List.mem_singleton.1 h]
  · split at h
    · rw [List.mem_singleton.1 h]
    · rw [List.mem_singleton.1 h]

theorem normalizeMD_pairedIndex (parse : String → Option Json) (op : MDOperation)
    (r : Json) (i : Nat) (o : OutputItem) (h : o ∈ normalizeMD parse op r i) :
    o.pairedItemIndex = i := by
  unfold normalizeMD at h
  split at h
  · rw [List.mem_singleton.1 h]
  · rw [List.mem_singleton.1 h]

theorem runLoopAux_cofTrue {σ : Type} (proc : Nat → σ → Except ApsError (List OutputItem)) :
    ∀ (scs : List σ) (i : Nat) (acc : List OutputItem),
    runLoopAux proc true scs i acc = .ok (acc ++ loopOutputs proc i scs) := by
  intro scs
  induction scs with
  | nil => intro i acc; simp [runLoopAux, loopOutputs]
  | cons sc rest ih =>
    intro i acc
    simp only [runLoopAux, loopOutputs]
    cases hp : proc i sc with
    | ok outs => simp [ih, itemOut, hp, List.append_assoc]
    | error e => simp [ih, itemOut, hp, List.append_assoc]

theorem loopOutputs_append {σ : Type} (proc : Nat → σ → Except ApsError (List OutputItem)) :
    ∀ (l1 l2 : List σ) (i : Nat),
    loopOutputs proc i (l1 ++ l2) = loopOutputs proc i l1 ++ loopOutputs proc (i + l1.length) l2 := by
  intro l1
  induction l1 with
  | nil => intro l2 i; simp [loopOutputs]
  | cons a l ih =>
    intro l2 i
    rw [List.cons_append]
    simp only [loopOutputs]
    rw [ih, List.append_assoc]
    have hIdx : i + 1 + l.length = i + (a :: l).length := by
      rw [List.length_cons]; omega
    rw [hIdx]

theorem runLoopAux_cofFalse_abort {σ : Type}
    (proc : Nat → σ → Except ApsError (List OutputItem)) :
    ∀ (pre : List σ) (sc : σ) (post : List σ) (e : ApsError) (i : Nat) (acc : List OutputItem),
    (∀ s ∈ pre, ∀ n, ∃ outs, proc n s = .ok outs) →
    (∀ n, proc n sc = .error e) →
    runLoopAux proc false (pre ++ sc :: post) i acc =
      .failed e.message (i + pre.length) (acc ++ loopOutputs proc i pre) := by
  intro pre
  induction pre with
  | nil =>
    intro sc post e i acc _ hsc
    simp [runLoopAux, hsc i, loopOutputs]
  | cons s pre ih =>
    intro sc post e i acc hpre hsc
    obtain ⟨outs, houts⟩ := hpre s (List.mem_cons_self _ _) i
    have h1 : runLoopAux proc false ((s :: pre) ++ sc :: post) i acc =
        runLoopAux proc false (pre ++ sc :: post) (i + 1) (acc ++ outs) := by
      simp only [List.cons_append, runLoopAux, houts, List.append_eq]
    rw [h1, ih sc post e (i + 1) (acc ++ outs)
        (fun s hs n => hpre s (List.mem_cons_of_mem _ hs) n) hsc]
    simp [loopOutputs, itemOut, houts, List.append_assoc]
    omega

-- A few sanity examples of the JavaScript semantics of the embedding.
example : Json.optGet (Json.obj [("a", Json.num 1)]) "b" = Json.jsUndefined := rfl
example : setField [("id", Json.str "a"), ("x", Json.null)] "id" (Json.str "b")
    = [("id", Json.str "b"), ("x", Json.null)] := rfl
example : simplifyEntity (Json.obj
    [("id", Json.str "a"), ("type", Json.str "items"),
     ("attributes", Json.obj [("name", Json.str "x")]),
     ("links", Json.obj [("self", Json.obj [("href", Json.str "u")])])])
    = Json.obj [("id", Json.str "a"), ("type", Json.str "items"),
        ("href", Json.str "u"), ("name", Json.str "x")] := rfl
example : simplifyEntity (Json.obj [("id", Json.str "a"),
      ("attributes", Json.obj [("id", Json.str "b")])])
    = Json.obj [("id", Json.str "b"), ("type", Json.jsUndefined), ("href", Json.jsUndefined)] := rfl

/-! ### Claim theorems -/

/-- Claim C1, counterexample: for the entity with extracted id "a" and an
attributes container holding id "b", the flattened record's id is the
attribute value "b", not the extracted value "a" — the spread of the
attributes comes after id, type and href in the object literal, so
attributes override the extracted fields, contradicting the claim. -/
theorem c1_counterexample :
    simplifyEntity (Json.obj [("id", Json.str "a"),
        ("attributes", Json.obj [("id", Json.str "b")])]) =
      Json.obj [("id", Json.str "b"), ("type", Json.jsUndefined), ("href", Json.jsUndefined)] ∧
    Json.str "b" ≠ Json.str "a" :=
  ⟨rfl, fun h => by injection h with h'; exact absurd h' (by decide)⟩

/-- Claim C1 as amended: precedence is reversed — whenever the attributes
container is an object (with the distinct keys a JavaScript object has)
holding a key k, the flattened record's value at k is the attribute value,
even for k = id, type or href; attribute values override the extracted
identity and link values, never the other way around. -/
theorem c1_amended (fs attrs : List (String × Json)) (k : String) (v : Json)
    (hattr : lookupField fs "attributes" = some (Json.obj attrs))
    (hnd : (attrs.map Prod.fst).Nodup)
    (hk : lookupField attrs k = some v) :
    jsonLookup (simplifyEntity (Json.obj fs)) k = some v := by
  unfold simplifyEntity
  have hget : Json.optGet (Json.obj fs) "attributes" = Json.obj attrs := by
    simp [Json.optGet, hattr]
  rw [hget]
  simp only [Json.truthy, Json.typeofIsObject, Bool.and_self, if_true, jsonLookup, spreadInto]
  exact lookupField_foldl_mem attrs k v hnd hk _

/-- Claim C1 witness: the amended precedence theorem applied to a concrete
entity whose attributes container collides on the id key. -/
theorem c1_witness :
    jsonLookup (simplifyEntity (Json.obj [("id", Json.str "a"),
        ("attributes", Json.obj [("id", Json.str "b")])])) "id" = some (Json.str "b") :=
  c1_amended [("id", Json.str "a"), ("attributes", Json.obj [("id", Json.str "b")])]
    [("id", Json.str "b")] "id" (Json.str "b") rfl (by decide) rfl

/-- Claim C2, counterexample: when the Data Management normalizer receives
a byte sequence (the object download response), it emits a single
pass-through item whose json is the raw byte value with no binary
attachment — not the base64-plus-content-type record with a binary
attachment that the claim requires for every binary-output operation. -/
theorem c2_counterexample :
    normalizeDM (Json.buf [1, 2, 3]) true true 0 =
      [{ json := Json.buf [1, 2, 3], pairedItemIndex := 0, binary := none }] ∧
    Json.buf [1, 2, 3] ≠ Json.obj [("thumbnail", Json.str (base64String [1, 2, 3])),
        ("contentType", Json.str "image/png")] :=
  ⟨rfl, fun h => Json.noConfusion h⟩

/-- Claim C2 as amended: of the two binary-output operations only the
thumbnail download produces the specified item — exactly one OutputItem
with a base64 json field, a declared content type, and the bytes attached
under the fixed name data — while the object download emits exactly one
OutputItem whose json is the raw byte value with no binary attachment.
In both cases exactly one item is produced per input item. -/
theorem c2_amended (parse : String → Option Json) (bs : List Nat) (s t : Bool) (i : Nat) :
    normalizeMD parse MDOperation.getThumbnail (Json.buf bs) i =
      [{ json := Json.obj [("thumbnail", Json.str (base64String bs)),
                           ("contentType", Json.str "image/png")],
         pairedItemIndex := i,
         binary := some { key := "data", fileName := "thumbnail.png",
                          mimeType := "image/png", bytes := bs } }] ∧
    normalizeDM (Json.buf bs) s t i =
      [{ json := Json.buf bs, pairedItemIndex := i, binary := none }] := by
  constructor
  · rfl
  · simp [normalizeDM, Json.optGet, Json.truthy, Json.typeofIsObject]

/-- Claim C3, counterexample: a flat record with a single field foo is not
returned unchanged by flattening — the foo field is dropped entirely (it
is neither id, type nor href), so flattening is not the identity on
records lacking attributes and links. -/
theorem c3_counterexample :
    simplifyEntity (Json.obj [("foo", Json.str "y")]) =
      Json.obj [("id", Json.jsUndefined), ("type", Json.jsUndefined), ("href", Json.jsUndefined)] ∧
    jsonLookup (Json.obj [("foo", Json.str "y")]) "foo" = some (Json.str "y") ∧
    jsonLookup (simplifyEntity (Json.obj [("foo", Json.str "y")])) "foo" = none :=
  ⟨rfl, rfl, rfl⟩

/-- Claim C3 as amended: on a record lacking both attributes and links,
flattening keeps only the id and type fields (undefined when absent),
sets href to undefined, and drops every other field — it is not the
identity modulo the id/type/href precedence rule. -/
theorem c3_amended (fs : List (String × Json))
    (ha : lookupField fs "attributes" = none)
    (hl : lookupField fs "links" = none) :
    simplifyEntity (Json.obj fs) =
      Json.obj [("id", (lookupField fs "id").getD Json.jsUndefined),
                ("type", (lookupField fs "type").getD Json.jsUndefined),
                ("href", Json.jsUndefined)] := by
  simp [simplifyEntity, Json.optGet, ha, hl, Json.isNullish, Json.truthy, spreadInto]

/-- Claim C3 witness: the amended flattening characterization applied to a
concrete flat record with an extra field. -/
theorem c3_witness :
    simplifyEntity (Json.obj [("id", Json.str "a"), ("foo", Json.str "y")]) =
      Json.obj [("id", Json.str "a"), ("type", Json.jsUndefined), ("href", Json.jsUndefined)] :=
  c3_amended [("id", Json.str "a"), ("foo", Json.str "y")] rfl rfl

/-- Claim C4: per-item error isolation in both pipelines. When item i
raises a configuration or transport error: with continue-on-failure
enabled the run succeeds and item i contributes exactly the single
error-shaped OutputItem with paired index i, the items before and after
contributing as usual; with it disabled (and the earlier items
succeeding) the run aborts with the error message and item index i,
retaining exactly the OutputItems already emitted for items before i. -/
theorem c4_error_policy (parse : String → Option Json)
    (pre post : List ItemScenarioDM) (sc : ItemScenarioDM)
    (preM postM : List ItemScenarioMD) (scM : ItemScenarioMD)
    (e eM : ApsError)
    (hsc : sc.outcome = .error e) (hscM : scM.outcome = .error eM) :
    (runDM parse true (pre ++ sc :: post) =
      .ok (loopOutputs (dmProc parse) 0 pre ++
           errorItem e.message pre.length ::
           loopOutputs (dmProc parse) (pre.length + 1) post)) ∧
    ((∀ s ∈ pre, ∃ r, s.outcome = .ok r) →
      runDM parse false (pre ++ sc :: post) =
        .failed e.message pre.length (loopOutputs (dmProc parse) 0 pre)) ∧
    (runMD parse true (preM ++ scM :: postM) =
      .ok (loopOutputs (mdProc parse) 0 preM ++
           errorItem eM.message preM.length ::
           loopOutputs (mdProc parse) (preM.length + 1) postM)) ∧
    ((∀ s ∈ preM, ∃ r, s.outcome = .ok r) →
      runMD parse false (preM ++ scM :: postM) =
        .failed eM.message preM.length (loopOutputs (mdProc parse) 0 preM)) := by
  refine ⟨?_, ?_, ?_, ?_⟩
  · rw [runDM, runLoopAux_cofTrue, loopOutputs_append]
    simp [loopOutputs, itemOut, dmProc, hsc, Except.map]
  · intro hpre
    rw [runDM, runLoopAux_cofFalse_abort (dmProc parse) pre sc post e 0 []
      (fun s hs n => by
        obtain ⟨r, hr⟩ := hpre s hs
        exact ⟨normalizeDM (parseIfString parse r) s.simplify s.splitItems n,
          by simp only [dmProc, hr, Except.map]⟩)
      (fun n => by simp [dmProc, hsc, Except.map])]
    simp
  · rw [runMD, runLoopAux_cofTrue, loopOutputs_append]
    simp [loopOutputs, itemOut, mdProc, hscM, Except.map]
  · intro hpre
    rw [runMD, runLoopAux_cofFalse_abort (mdProc parse) preM scM postM eM 0 []
      (fun s hs n => by
        obtain ⟨r, hr⟩ := hpre s hs
        exact ⟨normalizeMD parse s.op r n, by simp only [mdProc, hr, Except.map]⟩)
      (fun n => by simp [mdProc, hscM, Except.map])]
    simp

/-- Claim C4 witness: a five-item Data Management run with a
configuration error at index 2 and continue-on-failure disabled aborts at
index 2 with exactly the outputs of items 0 and 1 emitted. -/
theorem c4_witness :
    runDM (fun _ => none) false
      ([⟨Except.ok Json.null, true, true⟩, ⟨Except.ok Json.null, true, true⟩] ++
        ⟨Except.error (ApsError.config "missing parameter"), true, true⟩ ::
        [⟨Except.ok Json.null, true, true⟩, ⟨Except.ok Json.null, true, true⟩]) =
      ExecResult.failed "missing parameter" 2
        (loopOutputs (dmProc (fun _ => none)) 0
          [⟨Except.ok Json.null, true, true⟩, ⟨Except.ok Json.null, true, true⟩]) := by
  have h := (c4_error_policy (fun _ => none)
      [⟨Except.ok Json.null, true, true⟩, ⟨Except.ok Json.null, true, true⟩]
      [⟨Except.ok Json.null, true, true⟩, ⟨Except.ok Json.null, true, true⟩]
      ⟨Except.error (ApsError.config "missing parameter"), true, true⟩
      [] [] ⟨MDOperation.createJob, Except.error (ApsError.config "x")⟩
      (ApsError.config "missing parameter") (ApsError.config "x") rfl rfl).2.1
  exact h (by
    intro s hs
    simp only [List.mem_cons, List.not_mem_nil, or_false] at hs
    rcases hs with rfl | rfl <;> exact ⟨Json.null, rfl⟩)

/-- Claim C5: traceability — every OutputItem contributed while
processing input item i, in either pipeline and on every path (normal,
fanned-out, binary, or error-shaped), carries paired item index i. -/
theorem c5_traceability (parse : String → Option Json) (i : Nat)
    (sc : ItemScenarioDM) (scM : ItemScenarioMD) (o : OutputItem) :
    (o ∈ itemOut (dmProc parse) i sc → o.pairedItemIndex = i) ∧
    (o ∈ itemOut (mdProc parse) i scM → o.pairedItemIndex = i) := by
  constructor
  · intro h
    unfold itemOut dmProc at h
    cases hsc : sc.outcome with
    | ok r =>
      rw [hsc] at h
      simp only [Except.map] at h
      exact normalizeDM_pairedIndex _ _ _ _ _ h
    | error e =>
      rw [hsc] at h
      simp only [Except.map] at h
      rw [List.mem_singleton.1 h]
      rfl
  · intro h
    unfold itemOut mdProc at h
    cases hsc : scM.outcome with
    | ok r =>
      rw [hsc] at h
      simp only [Except.map] at h
      exact normalizeMD_pairedIndex _ _ _ _ _ h
    | error e =>
      rw [hsc] at h
      simp only [Except.map] at h
      rw [List.mem_singleton.1 h]
      rfl

/-- Claim C5 witness: the traceability theorem applied to the
error-shaped item of a concrete failing scenario at index 0. -/
theorem c5_witness : (errorItem "x" 0).pairedItemIndex = 0 :=
  (c5_traceability (fun _ => none) 0
      ⟨Except.error (ApsError.transport "x"), true, true⟩
      ⟨MDOperation.createJob, Except.error (ApsError.transport "x")⟩
      (errorItem "x" 0)).1
    (List.mem_singleton.mpr rfl)

/-- Claim C6: normalizing the list body carrying the single entity with
id a, type items, attribute name x and self-link href u, with simplify
and split-into-items both enabled, for input item 0, yields exactly one
OutputItem whose json is the flat record with id a, type items, href u,
name x, paired to item 0. -/
theorem c6_roundtrip :
    normalizeDM (Json.obj [("data", Json.arr [Json.obj
        [("id", Json.str "a"), ("type", Json.str "items"),
         ("attributes", Json.obj [("name", Json.str "x")]),
         ("links", Json.obj [("self", Json.obj [("href", Json.str "u")])])]])])
      true true 0 =
    [{ json := Json.obj [("id", Json.str "a"), ("type", Json.str "items"),
         ("href", Json.str "u"), ("name", Json.str "x")],
       pairedItemIndex := 0, binary := none }] := rfl

/-- Claim C7, counterexample: the exclamation mark is a reserved
character of RFC 3986 (a sub-delim), yet encodeURIComponent leaves it
raw, so a bucket key consisting of that character reaches the resolved
URL as a raw reserved character sourced from the parameter. -/
theorem c7_counterexample :
    isRfc3986Reserved '!' = true ∧
    encodeURIComponent "!" = "!" ∧
    bucketDetailsUrl "!" =
      "https://developer.api.autodesk.com/oss/v2/buckets/!/details" :=
  ⟨rfl, rfl, by decide⟩

/-- Claim C7 as amended: each path parameter is percent-encoded
individually before insertion; the encoded text consists only of
characters that encodeURIComponent leaves raw (letters, digits and the
marks, which include the raw sub-delims of RFC 3986) plus the percent
sign, hence contains no gen-delim — no structural URL delimiter and in
particular no slash — so every resolved URL has exactly the slash count
of its fixed template. -/
theorem c7_amended (p q r : String) :
    (∀ c ∈ (encodeURIComponent p).data, isEucSafe c = true ∨ c = '%') ∧
    (∀ c ∈ (encodeURIComponent p).data, isGenDelim c = false) ∧
    countSlash (encodeURIComponent p) = 0 ∧
    itemsUrl p q = BASE_URL ++ "/data/v1/projects/" ++ encodeURIComponent p ++
      "/folders/" ++ encodeURIComponent q ++ "/contents" ∧
    countSlash (projectsUrl p) = 7 ∧
    countSlash (topFoldersUrl p) = 7 ∧
    countSlash (itemsUrl p q) = 9 ∧
    countSlash (itemVersionsUrl p q) = 9 ∧
    countSlash (bucketDetailsUrl p) = 7 ∧
    countSlash (bucketUrl p) = 6 ∧
    countSlash (objectUrl p q) = 8 ∧
    countSlash (objectDetailsUrl p q) = 9 ∧
    countSlash (copyObjectUrl p q r) = 10 ∧
    countSlash (manifestUrl p) = 7 ∧
    countSlash (metadataUrl p) = 7 ∧
    countSlash (metadataTreeUrl p q) = 8 ∧
    countSlash (thumbnailUrl p) = 7 := by
  refine ⟨mem_encodeURIComponent p,
    fun c hc => euc_char_not_gendelim c (mem_encodeURIComponent p c hc),
    countSlash_enc p, rfl, ?_, ?_, ?_, ?_, ?_, ?_, ?_, ?_, ?_, ?_, ?_, ?_, ?_⟩ <;>
  simp only [projectsUrl, topFoldersUrl, itemsUrl, itemVersionsUrl, bucketDetailsUrl,
    bucketUrl, objectUrl, objectDetailsUrl, copyObjectUrl, manifestUrl, metadataUrl,
    metadataTreeUrl, thumbnailUrl, countSlash_append, countSlash_enc] <;>
  decide

/-- Claim C7 witness: the amended theorem applied to the concrete hub
parameter "hub" and the character h of its encoding. -/
theorem c7_witness : isEucSafe 'h' = true ∨ 'h' = '%' :=
  (c7_amended "hub" "x" "y").1 'h' (by decide)

/-- Claim C8: a body whose data field is the empty array yields zero
OutputItems under split-into-items; the empty-list body itself yields,
with split-into-items disabled, exactly one OutputItem whose json is the
object with the single field data holding the empty array, for either
simplify setting. -/
theorem c8_empty_data (fs : List (String × Json)) (s : Bool) (i : Nat) :
    (lookupField fs "data" = some (Json.arr []) →
      normalizeDM (Json.obj fs) s true i = []) ∧
    normalizeDM (Json.obj [("data", Json.arr [])]) s false i =
      [{ json := Json.obj [("data", Json.arr [])], pairedItemIndex := i,
         binary := none }] := by
  constructor
  · intro h
    simp [normalizeDM, Json.optGet, h]
  · cases s <;> rfl

/-- Claim C8 witness: the empty data array with split-into-items enabled
produces no output items. -/
theorem c8_witness : normalizeDM (Json.obj [("data", Json.arr [])]) true true 0 = [] :=
  (c8_empty_data [("data", Json.arr [])] true 0).1 rfl

/-- Claim C9: a body without a data field is passed through as exactly
one OutputItem whose json is the body verbatim, and the result does not
depend on the simplify setting — flattening is never applied on this
path. -/
theorem c9_passthrough (body : Json) (s t : Bool) (i : Nat)
    (h : body.optGet "data" = Json.jsUndefined) :
    normalizeDM body s t i =
      [{ json := body, pairedItemIndex := i, binary := none }] ∧
    normalizeDM body true t i = normalizeDM body false t i := by
  have key : ∀ s' : Bool, normalizeDM body s' t i =
      [{ json := body, pairedItemIndex := i, binary := none }] := by
    intro s'
    simp [normalizeDM, h, Json.truthy]
  exact ⟨key s, (key true).trans (key false).symm⟩

/-- Claim C9 witness: the pass-through theorem applied to the concrete
status/region body. -/
theorem c9_witness :
    normalizeDM (Json.obj [("status", Json.str "success"), ("region", Json.str "US")])
      true true 0 =
    [{ json := Json.obj [("status", Json.str "success"), ("region", Json.str "US")],
       pairedItemIndex := 0, binary := none }] :=
  (c9_passthrough (Json.obj [("status", Json.str "success"), ("region", Json.str "US")])
    true true 0 rfl).1

/-- Claim C10: with the advanced-output-settings toggle disabled the
createJob descriptor is identical to the baseline descriptor without the
optional views field, whatever views list is supplied; with the toggle
enabled the views list is attached inside the body's output format entry,
and every descriptor field other than the body is unchanged. -/
theorem c10_views_toggle (urn outputFormat : String) (forceRegenerate : Bool)
    (views : List String) :
    buildCreateJob urn outputFormat forceRegenerate false views =
      baselineCreateJob urn outputFormat forceRegenerate ∧
    (buildCreateJob urn outputFormat forceRegenerate true views).body =
      some (Json.obj [("input", Json.obj [("urn", Json.str urn)]),
        ("output", Json.obj [("formats", Json.arr [Json.obj
          [("type", Json.str outputFormat),
           ("views", Json.arr (views.map Json.str))]])])]) ∧
    (buildCreateJob urn outputFormat forceRegenerate true views).method =
      (baselineCreateJob urn outputFormat forceRegenerate).method ∧
    (buildCreateJob urn outputFormat forceRegenerate true views).url =
      (baselineCreateJob urn outputFormat forceRegenerate).url ∧
    (buildCreateJob urn outputFormat forceRegenerate true views).qs =
      (baselineCreateJob urn outputFormat forceRegenerate).qs ∧
    (buildCreateJob urn outputFormat forceRegenerate true views).headers =
      (baselineCreateJob urn outputFormat forceRegenerate).headers ∧
    (buildCreateJob urn outputFormat forceRegenerate true views).jsonEncode =
      (baselineCreateJob urn outputFormat forceRegenerate).jsonEncode :=
  ⟨rfl, rfl, rfl, rfl, rfl, rfl, rfl⟩
